import Mathlib

/-!
Shallow embedding of the seat-availability monitoring bot
(files src/database.py, src/monitoring.py, src/rzd_parser.py).

Modelling conventions:
- SQLite tables become Lean lists of row structures kept in insertion
  (rowid) order; AUTOINCREMENT is modelled by a nextSubId counter that is
  strictly greater than every existing row id.
- Calendar dates (stored as ISO yyyy-mm-dd strings, which compare
  identically under lexicographic and chronological order) are modelled as
  Nat day ordinals; timestamps are Nat.
- Python dictionaries with possibly-missing or None-valued keys become
  structures with Option fields (none = key absent or value None; the code
  only ever distinguishes these through truthiness, which identifies them).
- async/await control flow is sequentialised; external effects (the RZD
  web site, Telegram delivery) are supplied as explicit oracle parameters.
- Exceptions are modelled with Except; a Python try/except block becomes a
  match on the Except value.
-/

namespace RzdBot

/-- Row of the users table (database.py, initialize). -/
structure UserRow where
  telegram_id : Nat
  first_name : String
deriving DecidableEq, Repr

/-- Row of the subscriptions table (database.py, initialize). -/
structure SubRow where
  id : Nat
  user_id : Nat
  departure_station : String
  arrival_station : String
  departure_date : Nat
  train_number : String
  seat_type : String
  berth_position : String
  is_active : Bool
  last_checked : Option Nat
deriving DecidableEq, Repr

/-- Row of the check_history table (database.py, initialize). -/
structure CheckRow where
  subscription_id : Nat
  checked_at : Nat
  seats_available : Bool
  seats_info : Option String
deriving DecidableEq, Repr

/-- Row of the notifications table (database.py, initialize). -/
structure NotifRow where
  subscription_id : Nat
  message : String
  sent_at : Nat
deriving DecidableEq, Repr

/-- The persistent state owned by Database (database.py). -/
structure DBState where
  users : List UserRow
  subs : List SubRow
  history : List CheckRow
  notifs : List NotifRow
  nextSubId : Nat
deriving DecidableEq, Repr

/-- The (user, route, date, train, class, berth) tuple equality used by the
duplicate check of Database.create_subscription (database.py:246-252),
without the is_active conjunct. -/
def sameTuple (user_id : Nat) (departure_station arrival_station : String)
    (departure_date : Nat) (train_number seat_type berth_position : String)
    (r : SubRow) : Bool :=
  r.user_id == user_id && r.departure_station == departure_station &&
  r.arrival_station == arrival_station && r.departure_date == departure_date &&
  r.train_number == train_number && r.seat_type == seat_type &&
  r.berth_position == berth_position

/-- The WHERE clause of the duplicate check of Database.create_subscription
(database.py:246-252): same tuple AND is_active = 1. -/
def isActiveDuplicate (user_id : Nat) (departure_station arrival_station : String)
    (departure_date : Nat) (train_number seat_type berth_position : String)
    (r : SubRow) : Bool :=
  sameTuple user_id departure_station arrival_station departure_date
    train_number seat_type berth_position r && r.is_active

/-- Database.create_subscription (database.py:222-275): look for an active
subscription with the identical tuple; if found return its id, otherwise
insert a new row (is_active defaults to 1, last_checked to NULL) and return
the fresh rowid. -/
def createSubscription (db : DBState) (user_id : Nat)
    (departure_station arrival_station : String) (departure_date : Nat)
    (train_number seat_type berth_position : String) : Nat × DBState :=
  match db.subs.find? (isActiveDuplicate user_id departure_station
      arrival_station departure_date train_number seat_type berth_position) with
  | some r => (r.id, db)
  | none =>
    let newRow : SubRow :=
      { id := db.nextSubId, user_id := user_id,
        departure_station := departure_station,
        arrival_station := arrival_station,
        departure_date := departure_date, train_number := train_number,
        seat_type := seat_type, berth_position := berth_position,
        is_active := true, last_checked := none }
    (db.nextSubId,
     { db with subs := db.subs ++ [newRow], nextSubId := db.nextSubId + 1 })

/-- Database.get_active_subscriptions (database.py:320-363): all rows with
is_active = 1, joined with the users table on user_id = telegram_id. -/
def getActiveSubscriptions (db : DBState) : List SubRow :=
  db.subs.filter (fun s =>
    s.is_active && db.users.any (fun u => u.telegram_id == s.user_id))

/-- Database.update_last_checked (database.py:365-390): set last_checked to
the current timestamp on the row with the given id. -/
def updateLastChecked (db : DBState) (subscription_id : Nat) (now : Nat) :
    DBState :=
  { db with subs := db.subs.map (fun r =>
      if r.id == subscription_id then { r with last_checked := some now }
      else r) }

/-- Database.add_check_history (database.py:392-419): append a row to
check_history. -/
def addCheckHistory (db : DBState) (subscription_id : Nat)
    (seats_available : Bool) (seats_info : Option String) (now : Nat) :
    DBState :=
  { db with history := db.history ++
      [{ subscription_id := subscription_id, checked_at := now,
         seats_available := seats_available, seats_info := seats_info }] }

/-- Database.add_notification (database.py:421-446): append a row to
notifications. -/
def addNotification (db : DBState) (subscription_id : Nat) (message : String)
    (now : Nat) : DBState :=
  { db with notifs := db.notifs ++
      [{ subscription_id := subscription_id, message := message,
         sent_at := now }] }

/-- Database.deactivate_subscription (database.py:448-474): set
is_active = 0 on the row with the given id (the row is not deleted). -/
def deactivateSubscription (db : DBState) (subscription_id : Nat) : DBState :=
  { db with subs := db.subs.map (fun r =>
      if r.id == subscription_id then { r with is_active := false } else r) }

/-- The availability dictionary produced by RZDParser.check_seat_availability
and consumed by MonitoringService (rzd_parser.py:439-493). Option fields
model keys that may be absent or hold None. -/
structure AvailabilityInfo where
  available : Option Bool := none
  seat_type : Option String := none
  berth_position : Option String := none
  price : Option String := none
  car_number : Option String := none
  seat_number : Option String := none
  error : Option String := none
deriving DecidableEq, Repr

/-- Python truthiness of an optional string (absent, None and the empty
string are all falsy). -/
def pyTruthy : Option String → Bool
  | some s => s != ""
  | none => false

/-- availability_info.get with a False default, as the scheduler reads the
verdict (monitoring.py:125,130). -/
def pyGetAvailable (i : AvailabilityInfo) : Bool :=
  i.available.getD false

/-- Truthiness of the availability dictionary itself (monitoring.py:122,
str(availability_info) if availability_info else None): an empty dict is
falsy. -/
def AvailabilityInfo.isEmptyDict (i : AvailabilityInfo) : Bool :=
  i.available.isNone && i.seat_type.isNone && i.berth_position.isNone &&
  i.price.isNone && i.car_number.isNone && i.seat_number.isNone &&
  i.error.isNone

/-- Rendering of an optional bool, used by the str(dict) abstraction. -/
def optBoolStr : Option Bool → String
  | none => "None"
  | some true => "True"
  | some false => "False"

/-- Rendering of an optional string, used by the str(dict) abstraction. -/
def optStrStr : Option String → String
  | none => "None"
  | some s => s

/-- Abstraction of Python str(availability_info) (monitoring.py:122): a
deterministic rendering of the whole dictionary. Punctuation of the Python
repr is simplified; no claim depends on the rendered text. -/
def serializeInfo (i : AvailabilityInfo) : String :=
  "available: " ++ optBoolStr i.available ++
  ", seat_type: " ++ optStrStr i.seat_type ++
  ", berth_position: " ++ optStrStr i.berth_position ++
  ", price: " ++ optStrStr i.price ++
  ", car_number: " ++ optStrStr i.car_number ++
  ", seat_number: " ++ optStrStr i.seat_number ++
  ", error: " ++ optStrStr i.error

/-- The store/source operations performed inside one subscription check
(monitoring.py:89-136), recorded as an event trace for ordering claims. -/
inductive Event where
  | fetchVerdict
  | updateLastCheckedOp
  | recordHistoryOp
  | dispatchNotifyOp
deriving DecidableEq, Repr

/-- Outcome of the awaited call to RZDParser.check_seat_availability as seen
by the scheduler (monitoring.py:109-116): either an exception propagates or
an availability dictionary is returned. -/
inductive CheckOutcome where
  | raises (msg : String)
  | ok (info : AvailabilityInfo)
deriving DecidableEq, Repr

/-- The fixed f-string block of _format_notification_message
(monitoring.py:182-188): header, train, route, date and seat class. The
date (a Nat day ordinal in this model) is rendered with toString. -/
def mainChunk (sub : SubRow) : String :=
  "🎉 <b>Найдены свободные места!</b>\n\n🚂 <b>Поезд:</b> " ++
  (sub.train_number ++ ("\n📍 <b>Маршрут:</b> " ++
  (sub.departure_station ++ (" → " ++ (sub.arrival_station ++
  ("\n📅 <b>Дата:</b> " ++ (toString sub.departure_date ++
  ("\n🛏️ <b>Тип места:</b> " ++ (sub.seat_type ++ "\n")))))))))

/-- The berth line appended when berth_position is not any
(monitoring.py:190-191). -/
def berthChunk (sub : SubRow) : String :=
  "🛏️ <b>Полка:</b> " ++ (sub.berth_position ++ "\n")

/-- The price line (monitoring.py:194-195). -/
def priceChunk (p : String) : String :=
  "💰 <b>Цена:</b> " ++ (p ++ "\n")

/-- The car line (monitoring.py:197-198). -/
def carChunk (c : String) : String :=
  "🚃 <b>Вагон:</b> " ++ (c ++ "\n")

/-- The seat line (monitoring.py:200-201). -/
def seatChunk (s : String) : String :=
  "🪑 <b>Место:</b> " ++ (s ++ "\n")

/-- The timestamp-and-link footer (monitoring.py:203-207); tstr stands for
datetime.now().strftime of the moment of formatting. -/
def footerChunk (tstr : String) : String :=
  "\n⏰ <b>Время уведомления:</b> " ++
  (tstr ++ "\n\n🔗 <b>Ссылка для бронирования:</b>\nhttps://pass.rzd.ru/tickets/public/ru")

/-- An optional line gated on Python truthiness of the dictionary value
(monitoring.py:194-201, the availability_info.get tests): the line is
rendered exactly when the value is present and non-empty. -/
def optChunk (f : String → String) (o : Option String) : List String :=
  match o with
  | some p => if p != "" then [f p] else []
  | none => []

/-- The ordered list of fragments concatenated by
_format_notification_message (monitoring.py:171-209): the fixed block, then
the conditional berth line, then the price/car/seat lines gated on Python
truthiness of the corresponding dictionary values, then the footer. -/
def messageChunks (sub : SubRow) (info : AvailabilityInfo) (tstr : String) :
    List String :=
  [mainChunk sub] ++
  (if sub.berth_position != "любая" then [berthChunk sub] else []) ++
  optChunk priceChunk info.price ++
  optChunk carChunk info.car_number ++
  optChunk seatChunk info.seat_number ++
  [footerChunk tstr]

/-- MonitoringService._format_notification_message (monitoring.py:171-209):
the message is the concatenation, in order, of the fragments the Python
code appends with message += . -/
def formatNotificationMessage (sub : SubRow) (info : AvailabilityInfo)
    (tstr : String) : String :=
  String.join (messageChunks sub info tstr)

/-- MonitoringService._send_notification (monitoring.py:138-169): a no-op
without a configured bot; otherwise format the message, attempt Telegram
delivery (outcome supplied by the sendOk oracle; a delivery failure is
caught and skips the rest), and on success record the notification row. -/
def sendNotification (db : DBState) (sub : SubRow) (info : AvailabilityInfo)
    (botPresent sendOk : Bool) (tstr : String) (now : Nat) : DBState :=
  if botPresent then
    if sendOk then
      addNotification db sub.id (formatNotificationMessage sub info tstr) now
    else db
  else db

/-- MonitoringService._check_subscription (monitoring.py:89-136): re-read the
active subscriptions and locate the one with the given id (skip silently if
absent); call the availability source (an exception is caught, leaving the
state untouched); otherwise update last_checked, append the check-history
row, and when the verdict is available dispatch the notification. Returns
the new store state together with the trace of operations performed. -/
def checkSubscription (db : DBState) (subscription_id : Nat)
    (outcome : CheckOutcome) (botPresent sendOk : Bool) (tstr : String)
    (now : Nat) : DBState × List Event :=
  match (getActiveSubscriptions db).find? (fun s => s.id == subscription_id) with
  | none => (db, [])
  | some sub =>
    match outcome with
    | .raises _ => (db, [.fetchVerdict])
    | .ok info =>
      let db1 := updateLastChecked db subscription_id now
      let seats_info :=
        if info.isEmptyDict then none else some (serializeInfo info)
      let avail := pyGetAvailable info
      let db2 := addCheckHistory db1 subscription_id avail seats_info now
      if avail then
        (sendNotification db2 sub info botPresent sendOk tstr now,
         [.fetchVerdict, .updateLastCheckedOp, .recordHistoryOp,
          .dispatchNotifyOp])
      else
        (db2, [.fetchVerdict, .updateLastCheckedOp, .recordHistoryOp])

/-- One fan-out step of _check_all_subscriptions: run the check of one
subscription against the accumulated state, tagging its trace with the
subscription id. -/
def checkStep (outcome : Nat → CheckOutcome) (botPresent : Bool)
    (sendOk : Nat → Bool) (tstr : String) (now : Nat)
    (acc : DBState × List (Nat × Event)) (s : SubRow) :
    DBState × List (Nat × Event) :=
  let r := checkSubscription acc.1 s.id (outcome s.id) botPresent
    (sendOk s.id) tstr now
  (r.1, acc.2 ++ r.2.map (fun e => (s.id, e)))

/-- MonitoringService._check_all_subscriptions (monitoring.py:69-87): fetch
the active subscriptions and run one check per subscription; gather with
return_exceptions=True collects per-task failures, and each task catches
its own exceptions, so no failure aborts the batch. The concurrent fan-out
is sequentialised as a fold; every claim proved about it is
interleaving-insensitive (membership and per-id counts of the trace). -/
def checkAllSubscriptions (db : DBState) (outcome : Nat → CheckOutcome)
    (botPresent : Bool) (sendOk : Nat → Bool) (tstr : String) (now : Nat) :
    DBState × List (Nat × Event) :=
  (getActiveSubscriptions db).foldl
    (checkStep outcome botPresent sendOk tstr now) (db, [])

/-- The in-process scheduler configuration (monitoring.py:22-30). -/
structure MonitoringState where
  is_running : Bool
  check_interval : Int
deriving DecidableEq, Repr

/-- MonitoringService.update_check_interval (monitoring.py:227-238): clamp
a requested interval below 60 seconds to 60, then store it. -/
def updateCheckInterval (st : MonitoringState) (interval : Int) :
    MonitoringState :=
  let interval := if interval < 60 then 60 else interval
  { st with check_interval := interval }

/-- MonitoringService.cleanup_old_subscriptions (monitoring.py:240-257):
walk the active subscriptions and deactivate every one whose departure
date is strictly before today. -/
def cleanupOldSubscriptions (db : DBState) (today : Nat) : DBState :=
  (getActiveSubscriptions db).foldl
    (fun st s =>
      if s.departure_date < today then deactivateSubscription st s.id else st)
    db

/-- Python substring test (needle in haystack) on the underlying character
lists. -/
def strContains (haystack needle : String) : Bool :=
  decide (needle.data <:+: haystack.data)

/-- Python str.lower(). Lean's Char.toLower only lowercases ASCII while
Python also lowercases Cyrillic; every string the code lowercases before
comparing is already lower-case in the source, and no claim depends on the
difference. -/
def pyLower (s : String) : String :=
  s.toLower

/-- One candidate seat block found in the availability page
(rzd_parser.py:520-541): its visible text together with the results of the
_extract_price / _extract_car_number / _extract_seat_number probes on it
(each total, returning None on any failure). -/
structure Block where
  text : String
  price : Option String
  car_number : Option String
  seat_number : Option String
deriving DecidableEq, Repr

/-- The environment _parse_seat_availability reads through BeautifulSoup
(rzd_parser.py:495-559): an exception during parsing, the seat blocks
found, and the full page text used by the general-availability fallback. -/
structure ParseEnv where
  soupRaises : Option String
  blocks : List Block
  pageText : String
deriving Repr

/-- RZDParser._is_seat_available (rzd_parser.py:624-656): the block text
must mention the seat class; for compartment class with a specific berth
preference it must mention the berth; and it must not carry a
booked/taken/unavailable marker. -/
def isSeatAvailable (b : Block) (seat_type berth_position : String) : Bool :=
  let block_text := pyLower b.text
  if !(strContains block_text (pyLower seat_type)) then false
  else if pyLower seat_type == "купе" && berth_position != "любая" &&
      !(strContains block_text (pyLower berth_position)) then false
  else if strContains block_text "забронировано" ||
      strContains block_text "занято" ||
      strContains block_text "недоступно" then false
  else true

/-- The positive-availability markers of _check_general_availability
(rzd_parser.py:575-578). -/
def availabilityIndicators : List String :=
  ["доступно", "свободно", "есть места", "можно купить",
   "available", "free", "book", "купить"]

/-- The negative-availability markers of _check_general_availability
(rzd_parser.py:580-583). -/
def unavailableIndicators : List String :=
  ["нет мест", "забронировано", "занято", "недоступно",
   "sold out", "unavailable", "закончились"]

/-- RZDParser._check_general_availability (rzd_parser.py:561-622): scan the
lower-cased page text for availability markers (verdict true with
placeholder price/car/seat), then for unavailability markers, defaulting to
unavailable; every branch carries the available key. -/
def checkGeneralAvailability (pageText : String)
    (seat_type berth_position : String) : AvailabilityInfo :=
  let page := pyLower pageText
  if availabilityIndicators.any (fun ind => strContains page ind) then
    { available := some true, seat_type := some seat_type,
      berth_position := some berth_position,
      price := some "Уточните на сайте",
      car_number := some "Уточните на сайте",
      seat_number := some "Уточните на сайте" }
  else if unavailableIndicators.any (fun ind => strContains page ind) then
    { available := some false, seat_type := some seat_type,
      berth_position := some berth_position }
  else
    { available := some false, seat_type := some seat_type,
      berth_position := some berth_position }

/-- RZDParser._parse_seat_availability (rzd_parser.py:495-559): on a parsing
exception return available False with the error text; otherwise start from
the seat_info literal (available False, price/car/seat None), fill it from
the first matching seat block, and fall back to the general-availability
scan when no block matched. -/
def parseSeatAvailability (env : ParseEnv)
    (seat_type berth_position : String) : AvailabilityInfo :=
  match env.soupRaises with
  | some e => { available := some false, error := some e }
  | none =>
    match env.blocks.find? (fun b => isSeatAvailable b seat_type berth_position) with
    | some b =>
      { available := some true, seat_type := some seat_type,
        berth_position := some berth_position, price := b.price,
        car_number := b.car_number, seat_number := b.seat_number }
    | none => checkGeneralAvailability env.pageText seat_type berth_position

/-- The environment RZDParser.check_seat_availability interacts with
(rzd_parser.py:439-493): the station-code lookup (itself total: it catches
internally and returns None on failure), a possible exception raised while
performing the HTTP request, the HTTP status, and the parsing environment
of the returned page. -/
structure ParserEnv where
  stationCode : String → Option String
  httpRaises : Option String
  httpStatus : Nat
  parseEnv : ParseEnv

/-- The try-block body of RZDParser.check_seat_availability
(rzd_parser.py:456-489), before the enclosing except: a falsy station code
for either endpoint short-circuits to an error dictionary; an HTTP
exception propagates; a non-200 status yields an error dictionary;
otherwise the page is parsed. -/
def checkSeatAvailabilityBody (env : ParserEnv)
    (departure_station arrival_station seat_type berth_position : String) :
    Except String AvailabilityInfo :=
  let departure_code := env.stationCode departure_station
  let arrival_code := env.stationCode arrival_station
  if !(pyTruthy departure_code) || !(pyTruthy arrival_code) then
    .ok { available := some false,
          error := some "Не удалось найти коды станций" }
  else
    match env.httpRaises with
    | some e => .error e
    | none =>
      if env.httpStatus != 200 then
        .ok { available := some false,
              error := some ("HTTP ошибка " ++ toString env.httpStatus) }
      else
        .ok (parseSeatAvailability env.parseEnv seat_type berth_position)

/-- RZDParser.check_seat_availability (rzd_parser.py:439-493): the body
wrapped in the catch-all except that turns any exception into an
available-False dictionary carrying the error text. The train number and
departure date only parametrise the HTTP request, which the environment
abstracts, so they are omitted. -/
def checkSeatAvailability (env : ParserEnv)
    (departure_station arrival_station seat_type berth_position : String) :
    AvailabilityInfo :=
  match checkSeatAvailabilityBody env departure_station arrival_station
      seat_type berth_position with
  | .ok d => d
  | .error e => { available := some false, error := some e }

/-- Every branch of _parse_seat_availability carries the available key. -/
lemma parseSeatAvailability_available_isSome (pe : ParseEnv) (sty bp : String) :
    (parseSeatAvailability pe sty bp).available.isSome = true := by
  unfold parseSeatAvailability
  cases h : pe.soupRaises with
  | some e => simp
  | none =>
    cases hf : pe.blocks.find? (fun b => isSeatAvailable b sty bp) with
    | some b => simp
    | none =>
      unfold checkGeneralAvailability
      dsimp only
      split_ifs <;> simp

/-- A parsing exception yields the available-False error dictionary. -/
lemma parseSeatAvailability_of_soupRaises (pe : ParseEnv) (sty bp e : String)
    (h : pe.soupRaises = some e) :
    parseSeatAvailability pe sty bp =
      { available := some false, error := some e } := by
  unfold parseSeatAvailability
  rw [h]

/-- C9: RZDParser.check_seat_availability is total at its interface: for
every environment and input its result carries the available key, and on
every internal failure (falsy station code for either endpoint, an HTTP
exception, a non-200 status, or a parsing exception) the result has
available = False together with an error key, so at the scheduler boundary
a failed probe reads exactly like an unavailable verdict. -/
theorem claim_C9_source_total (env : ParserEnv)
    (dep arr sty bp : String) :
    (checkSeatAvailability env dep arr sty bp).available.isSome = true ∧
    ((pyTruthy (env.stationCode dep) = false ∨
      pyTruthy (env.stationCode arr) = false ∨
      env.httpRaises.isSome = true ∨
      env.httpStatus ≠ 200 ∨
      env.parseEnv.soupRaises.isSome = true) →
      (checkSeatAvailability env dep arr sty bp).available = some false ∧
      (checkSeatAvailability env dep arr sty bp).error.isSome = true ∧
      pyGetAvailable (checkSeatAvailability env dep arr sty bp) = false) := by
  unfold checkSeatAvailability checkSeatAvailabilityBody
  by_cases hdep : pyTruthy (env.stationCode dep) = false
  · rw [if_pos (by simp [hdep])]
    refine ⟨rfl, fun _ => ⟨rfl, rfl, rfl⟩⟩
  · by_cases harr : pyTruthy (env.stationCode arr) = false
    · rw [if_pos (by simp [harr])]
      refine ⟨rfl, fun _ => ⟨rfl, rfl, rfl⟩⟩
    · rw [if_neg (by simp [eq_true_of_ne_false hdep, eq_true_of_ne_false harr])]
      cases hhttp : env.httpRaises with
      | some e =>
        refine ⟨rfl, fun _ => ⟨rfl, rfl, rfl⟩⟩
      | none =>
        by_cases hst : env.httpStatus = 200
        · rw [if_neg (by simp [hst])]
          refine ⟨parseSeatAvailability_available_isSome _ _ _, ?_⟩
          rintro (h | h | h | h | h)
          · exact absurd h hdep
          · exact absurd h harr
          · exact absurd h (by simp)
          · exact absurd hst h
          · obtain ⟨e, he⟩ := Option.isSome_iff_exists.mp h
            rw [parseSeatAvailability_of_soupRaises _ _ _ _ he]
            exact ⟨rfl, rfl, rfl⟩
        · rw [if_pos (by simpa using hst)]
          refine ⟨rfl, fun _ => ⟨rfl, rfl, rfl⟩⟩

/-- A concrete environment whose station-code lookup always fails. -/
def envUnknownStations : ParserEnv :=
  { stationCode := fun _ => none, httpRaises := none, httpStatus := 200,
    parseEnv := { soupRaises := none, blocks := [], pageText := "" } }

/-- Witness for C9: with an unknown departure station the probe returns
available = False with an error key and the scheduler reads it as
unavailable. -/
theorem claim_C9_source_total_witness :
    (checkSeatAvailability envUnknownStations "Москва" "Казань" "купе"
      "любая").available = some false ∧
    (checkSeatAvailability envUnknownStations "Москва" "Казань" "купе"
      "любая").error.isSome = true ∧
    pyGetAvailable (checkSeatAvailability envUnknownStations "Москва"
      "Казань" "купе" "любая") = false :=
  (claim_C9_source_total envUnknownStations "Москва" "Казань" "купе"
    "любая").2 (Or.inl rfl)

/-- C3: MonitoringService.update_check_interval clamps every requested
interval below 60 seconds to exactly 60 and stores intervals of at least
60 unchanged. -/
theorem claim_C3_interval_floor (st : MonitoringState) (interval : Int) :
    (interval < 60 →
      (updateCheckInterval st interval).check_interval = 60) ∧
    (60 ≤ interval →
      (updateCheckInterval st interval).check_interval = interval) := by
  constructor
  · intro h
    simp [updateCheckInterval, if_pos h]
  · intro h
    simp [updateCheckInterval, if_neg (not_lt.mpr h)]

/-- Witness for C3: requesting a 10-second interval yields an effective
interval of 60 seconds. -/
theorem claim_C3_interval_floor_witness :
    (updateCheckInterval { is_running := true, check_interval := 300 }
      10).check_interval = 60 :=
  (claim_C3_interval_floor { is_running := true, check_interval := 300 }
    10).1 (by decide)

/-- C2: Database.create_subscription is idempotent over active duplicates:
when an active subscription with the identical (user, route, date, train,
class, berth) tuple exists, creation returns that subscription's id and
leaves the store unchanged; consequently two consecutive create calls with
the same arguments return the same identifier. -/
theorem claim_C2_create_idempotent (db : DBState) (u : Nat) (ds ar : String)
    (dd : Nat) (tn sty bp : String) :
    (∀ r, db.subs.find? (isActiveDuplicate u ds ar dd tn sty bp) = some r →
      createSubscription db u ds ar dd tn sty bp = (r.id, db)) ∧
    (createSubscription (createSubscription db u ds ar dd tn sty bp).2
        u ds ar dd tn sty bp).1 =
      (createSubscription db u ds ar dd tn sty bp).1 := by
  constructor
  · intro r h
    unfold createSubscription
    rw [h]
  · cases h : db.subs.find? (isActiveDuplicate u ds ar dd tn sty bp) with
    | some r => simp [createSubscription, h]
    | none =>
      have hnew : isActiveDuplicate u ds ar dd tn sty bp
          { id := db.nextSubId, user_id := u, departure_station := ds,
            arrival_station := ar, departure_date := dd, train_number := tn,
            seat_type := sty, berth_position := bp, is_active := true,
            last_checked := none } = true := by
        simp [isActiveDuplicate, sameTuple]
      simp [createSubscription, h, List.find?_append, hnew]

/-- A concrete active subscription used by the database witnesses. -/
def sub0 : SubRow :=
  { id := 1, user_id := 7, departure_station := "Москва",
    arrival_station := "Казань", departure_date := 737946,
    train_number := "001М", seat_type := "купе",
    berth_position := "нижняя", is_active := true, last_checked := none }

/-- A concrete store holding one user and the one active subscription. -/
def db0 : DBState :=
  { users := [{ telegram_id := 7, first_name := "Иван" }], subs := [sub0],
    history := [], notifs := [], nextSubId := 2 }

/-- Witness for C2: with the duplicate active, creation returns id 1 and
changes nothing, and two consecutive creations agree. -/
theorem claim_C2_create_idempotent_witness :
    createSubscription db0 7 "Москва" "Казань" 737946 "001М" "купе"
      "нижняя" = (1, db0) ∧
    (createSubscription (createSubscription db0 7 "Москва" "Казань" 737946
        "001М" "купе" "нижняя").2 7 "Москва" "Казань" 737946 "001М" "купе"
        "нижняя").1 =
      (createSubscription db0 7 "Москва" "Казань" 737946 "001М" "купе"
        "нижняя").1 :=
  ⟨(claim_C2_create_idempotent db0 7 "Москва" "Казань" 737946 "001М" "купе"
      "нижняя").1 sub0 (by decide),
   (claim_C2_create_idempotent db0 7 "Москва" "Казань" 737946 "001М" "купе"
      "нижняя").2⟩

/-- C10: the duplicate check of create_subscription matches only active
rows: once the subscription holding the tuple has been deactivated (and it
was the only row the duplicate check could match), a subsequent create
call appends a fresh row and returns a fresh identifier different from the
deactivated subscription's identifier. -/
theorem claim_C10_dedup_active_only (db : DBState) (u : Nat) (ds ar : String)
    (dd : Nat) (tn sty bp : String) (r : SubRow)
    (hwf : ∀ s ∈ db.subs, s.id < db.nextSubId)
    (hr : r ∈ db.subs)
    (huniq : ∀ s ∈ db.subs,
      isActiveDuplicate u ds ar dd tn sty bp s = true → s.id = r.id) :
    (createSubscription (deactivateSubscription db r.id) u ds ar dd tn sty
      bp).1 = db.nextSubId ∧
    (createSubscription (deactivateSubscription db r.id) u ds ar dd tn sty
      bp).1 ≠ r.id ∧
    (createSubscription (deactivateSubscription db r.id) u ds ar dd tn sty
      bp).2.subs.length = db.subs.length + 1 := by
  have hnone : (deactivateSubscription db r.id).subs.find?
      (isActiveDuplicate u ds ar dd tn sty bp) = none := by
    rw [List.find?_eq_none]
    intro x hx
    simp only [deactivateSubscription, List.mem_map] at hx
    obtain ⟨s, hs, rfl⟩ := hx
    by_cases hid : s.id == r.id
    · simp [hid, isActiveDuplicate]
    · simp only [hid, Bool.false_eq_true, if_false]
      intro hdup
      exact absurd (huniq s hs hdup) (by simpa using hid)
  have h1 : createSubscription (deactivateSubscription db r.id) u ds ar dd
      tn sty bp =
      (db.nextSubId,
       { users := db.users,
         subs := (deactivateSubscription db r.id).subs ++
           [{ id := db.nextSubId, user_id := u, departure_station := ds,
              arrival_station := ar, departure_date := dd,
              train_number := tn, seat_type := sty, berth_position := bp,
              is_active := true, last_checked := none }],
         history := db.history, notifs := db.notifs,
         nextSubId := db.nextSubId + 1 }) := by
    unfold createSubscription
    rw [hnone]
    rfl
  refine ⟨by rw [h1], ?_, ?_⟩
  · rw [h1]
    exact (hwf r hr).ne'
  · rw [h1]
    simp [deactivateSubscription]

/-- Witness for C10: after deactivating subscription 1, creating the same
tuple returns the fresh id 2 and appends a row. -/
theorem claim_C10_dedup_active_only_witness :
    (createSubscription (deactivateSubscription db0 1) 7 "Москва" "Казань"
      737946 "001М" "купе" "нижняя").1 = 2 ∧
    (createSubscription (deactivateSubscription db0 1) 7 "Москва" "Казань"
      737946 "001М" "купе" "нижняя").1 ≠ 1 ∧
    (createSubscription (deactivateSubscription db0 1) 7 "Москва" "Казань"
      737946 "001М" "купе" "нижняя").2.subs.length = 2 :=
  claim_C10_dedup_active_only db0 7 "Москва" "Казань" 737946 "001М" "купе"
    "нижняя" sub0 (by decide) (by decide) (by decide)

/-- A minimal availability dictionary carrying one verdict, as handed to
the scheduler for one cycle. -/
def verdictInfo (v : Bool) : AvailabilityInfo :=
  { available := some v, seat_type := some "купе",
    berth_position := some "нижняя" }

/-- Drive _check_subscription for one subscription over a sequence of
per-cycle verdicts (bot configured, every Telegram delivery succeeding). -/
def runVerdicts (db : DBState) (subscription_id : Nat)
    (verdicts : List Bool) : DBState :=
  verdicts.foldl (fun st v =>
    (checkSubscription st subscription_id (.ok (verdictInfo v)) true true
      "01.06.2025 10:00" 0).1) db

/-- C1 evaluated on the code: for the verdict sequence
[false, true, true, false, true] the source dispatches a notification on
every cycle whose verdict is true (monitoring.py:130 has no edge
detection), so three notifications are recorded (after indices 1, 2 and
4), not the two the claim requires. -/
theorem claim_C1_code_eval :
    (runVerdicts db0 1 [false, true, true, false, true]).notifs.length = 3 ∧
    ¬ (runVerdicts db0 1 [false, true, true, false, true]).notifs.length
      = 2 := by
  constructor
  · rfl
  · decide

/-- C5 counterexample: on a successful available check the source performs
fetch, then update-last-checked, then record-history, then notify
(monitoring.py:109,119,123,131) — not the claimed fetch, record-history,
update-last-checked, notify order. -/
theorem claim_C5_counterexample :
    (checkSubscription db0 1 (.ok (verdictInfo true)) true true "ts" 0).2 =
      [Event.fetchVerdict, Event.updateLastCheckedOp, Event.recordHistoryOp,
       Event.dispatchNotifyOp] ∧
    ¬ (checkSubscription db0 1 (.ok (verdictInfo true)) true true "ts" 0).2
      = [Event.fetchVerdict, Event.recordHistoryOp,
         Event.updateLastCheckedOp, Event.dispatchNotifyOp] := by
  constructor
  · rfl
  · decide

/-- C5 as amended: within every successful single-subscription check the
store operations are causally ordered as fetch the verdict, then update
the last-checked timestamp, then record the check-history entry, then
conditionally dispatch the notification. -/
theorem claim_C5_check_order (db : DBState) (subscription_id : Nat)
    (info : AvailabilityInfo) (botPresent sendOk : Bool) (tstr : String)
    (now : Nat) (sub : SubRow)
    (hfound : (getActiveSubscriptions db).find?
      (fun s => s.id == subscription_id) = some sub) :
    (checkSubscription db subscription_id (.ok info) botPresent sendOk tstr
      now).2 =
      [Event.fetchVerdict, Event.updateLastCheckedOp,
       Event.recordHistoryOp] ++
      (if pyGetAvailable info then [Event.dispatchNotifyOp] else []) := by
  unfold checkSubscription
  rw [hfound]
  by_cases h : pyGetAvailable info <;> simp [h]

/-- Witness for the amended C5 at a concrete available check. -/
theorem claim_C5_check_order_witness :
    (checkSubscription db0 1 (.ok (verdictInfo true)) true true "ts" 0).2 =
      [Event.fetchVerdict, Event.updateLastCheckedOp,
       Event.recordHistoryOp] ++
      (if pyGetAvailable (verdictInfo true) then [Event.dispatchNotifyOp]
       else []) :=
  claim_C5_check_order db0 1 (verdictInfo true) true true "ts" 0 sub0
    (by decide)

/-- The ids of the subscriptions visible to one checking cycle. -/
def activeIds (db : DBState) : List Nat :=
  (getActiveSubscriptions db).map (fun r => r.id)

/-- One subscription check only rewrites subscription rows pointwise, in a
way that preserves id, activity flag and owner, and never touches the
users table. -/
lemma checkSubscription_subs_shape (db : DBState) (subscription_id : Nat)
    (outcome : CheckOutcome) (botPresent sendOk : Bool) (tstr : String)
    (now : Nat) :
    (checkSubscription db subscription_id outcome botPresent sendOk tstr
      now).1.users = db.users ∧
    ∃ g : SubRow → SubRow,
      (∀ r, (g r).id = r.id ∧ (g r).is_active = r.is_active ∧
        (g r).user_id = r.user_id) ∧
      (checkSubscription db subscription_id outcome botPresent sendOk tstr
        now).1.subs = db.subs.map g := by
  unfold checkSubscription
  cases hf : (getActiveSubscriptions db).find?
      (fun s => s.id == subscription_id) with
  | none =>
    exact ⟨rfl, id, fun r => ⟨rfl, rfl, rfl⟩, by simp⟩
  | some sub =>
    cases outcome with
    | raises msg =>
      exact ⟨rfl, id, fun r => ⟨rfl, rfl, rfl⟩, by simp⟩
    | ok info =>
      refine ⟨?_, ?_⟩
      · by_cases h : pyGetAvailable info <;>
          simp [h, sendNotification, addNotification, addCheckHistory,
            updateLastChecked] <;>
          split_ifs <;> rfl
      · refine ⟨fun r => if r.id == subscription_id then
            { r with last_checked := some now } else r, fun r => ?_, ?_⟩
        · by_cases h : r.id == subscription_id <;> simp [h]
        · by_cases h : pyGetAvailable info <;>
            simp [h, sendNotification, addNotification, addCheckHistory,
              updateLastChecked] <;>
            split_ifs <;> rfl

/-- One subscription check leaves the set (and order) of active
subscription ids unchanged. -/
lemma activeIds_check (db : DBState) (subscription_id : Nat)
    (outcome : CheckOutcome) (botPresent sendOk : Bool) (tstr : String)
    (now : Nat) :
    activeIds (checkSubscription db subscription_id outcome botPresent
      sendOk tstr now).1 = activeIds db := by
  obtain ⟨husers, g, hg, hsubs⟩ := checkSubscription_subs_shape db
    subscription_id outcome botPresent sendOk tstr now
  unfold activeIds getActiveSubscriptions
  rw [husers, hsubs, List.filter_map]
  have hfilter : db.subs.filter ((fun s => s.is_active &&
      db.users.any fun u => u.telegram_id == s.user_id) ∘ g) =
      db.subs.filter (fun s => s.is_active &&
        db.users.any fun u => u.telegram_id == s.user_id) := by
    apply List.filter_congr
    intro r hr
    simp [Function.comp, (hg r).2.1, (hg r).2.2]
  rw [hfilter, List.map_map]
  apply List.map_congr_left
  intro r hr
  exact (hg r).1

/-- A subscription check appends to the history table, never removing. -/
lemma checkSubscription_history_mono (db : DBState) (subscription_id : Nat)
    (outcome : CheckOutcome) (botPresent sendOk : Bool) (tstr : String)
    (now : Nat) :
    ∃ tail, (checkSubscription db subscription_id outcome botPresent sendOk
      tstr now).1.history = db.history ++ tail := by
  unfold checkSubscription
  cases hf : (getActiveSubscriptions db).find?
      (fun s => s.id == subscription_id) with
  | none => exact ⟨[], by simp⟩
  | some sub =>
    cases outcome with
    | raises msg => exact ⟨[], by simp⟩
    | ok info =>
      refine ⟨[CheckRow.mk subscription_id now (pyGetAvailable info)
        (if info.isEmptyDict then none else some (serializeInfo info))], ?_⟩
      by_cases h : pyGetAvailable info
      · simp only [h, if_true]
        unfold sendNotification addNotification addCheckHistory
          updateLastChecked
        split_ifs <;> simp [h]
      · simp only [h, if_false]
        simp [addCheckHistory, updateLastChecked, h]

/-- Unfolding equation for one fan-out step. -/
lemma checkStep_eq (outcome : Nat → CheckOutcome) (botPresent : Bool)
    (sendOk : Nat → Bool) (tstr : String) (now : Nat)
    (acc : DBState × List (Nat × Event)) (s : SubRow) :
    checkStep outcome botPresent sendOk tstr now acc s =
      ((checkSubscription acc.1 s.id (outcome s.id) botPresent (sendOk s.id)
          tstr now).1,
       acc.2 ++ (checkSubscription acc.1 s.id (outcome s.id) botPresent
          (sendOk s.id) tstr now).2.map (fun e => (s.id, e))) := rfl

/-- The accumulated trace of a fan-out fold is a prefix-independent
accumulator: the fold only ever appends to it. -/
lemma foldl_trace_append (outcome : Nat → CheckOutcome) (botPresent : Bool)
    (sendOk : Nat → Bool) (tstr : String) (now : Nat) :
    ∀ (l : List SubRow) (db : DBState) (tr : List (Nat × Event)),
    (l.foldl (checkStep outcome botPresent sendOk tstr now) (db, tr)).2 =
      tr ++ (l.foldl (checkStep outcome botPresent sendOk tstr now)
        (db, [])).2 := by
  intro l
  induction l with
  | nil => intro db tr; simp
  | cons s l ih =>
    intro db tr
    rw [List.foldl_cons, List.foldl_cons, checkStep_eq, checkStep_eq]
    dsimp only
    rw [List.nil_append]
    rw [ih ((checkSubscription db s.id (outcome s.id) botPresent
        (sendOk s.id) tstr now).1)
      (tr ++ List.map (fun e => (s.id, e)) (checkSubscription db s.id
        (outcome s.id) botPresent (sendOk s.id) tstr now).2)]
    rw [ih ((checkSubscription db s.id (outcome s.id) botPresent
        (sendOk s.id) tstr now).1)
      (List.map (fun e => (s.id, e)) (checkSubscription db s.id
        (outcome s.id) botPresent (sendOk s.id) tstr now).2)]
    rw [List.append_assoc]

/-- The state component of a fan-out fold does not depend on the trace
accumulator. -/
lemma foldl_state_indep (outcome : Nat → CheckOutcome) (botPresent : Bool)
    (sendOk : Nat → Bool) (tstr : String) (now : Nat) :
    ∀ (l : List SubRow) (db : DBState) (tr : List (Nat × Event)),
    (l.foldl (checkStep outcome botPresent sendOk tstr now) (db, tr)).1 =
      (l.foldl (checkStep outcome botPresent sendOk tstr now)
        (db, [])).1 := by
  intro l
  induction l with
  | nil => intro db tr; simp
  | cons s l ih =>
    intro db tr
    rw [List.foldl_cons, List.foldl_cons, checkStep_eq, checkStep_eq]
    dsimp only
    rw [ih ((checkSubscription db s.id (outcome s.id) botPresent
        (sendOk s.id) tstr now).1)
      (tr ++ List.map (fun e => (s.id, e)) (checkSubscription db s.id
        (outcome s.id) botPresent (sendOk s.id) tstr now).2)]
    rw [ih ((checkSubscription db s.id (outcome s.id) botPresent
        (sendOk s.id) tstr now).1)
      ([] ++ List.map (fun e => (s.id, e)) (checkSubscription db s.id
        (outcome s.id) botPresent (sendOk s.id) tstr now).2)]

/-- A fan-out fold only appends to the check-history table. -/
lemma foldl_history_mono (outcome : Nat → CheckOutcome) (botPresent : Bool)
    (sendOk : Nat → Bool) (tstr : String) (now : Nat) :
    ∀ (l : List SubRow) (db : DBState) (tr : List (Nat × Event)),
    ∃ tail, (l.foldl (checkStep outcome botPresent sendOk tstr now)
        (db, tr)).1.history = db.history ++ tail := by
  intro l
  induction l with
  | nil => intro db tr; exact ⟨[], by simp⟩
  | cons s l ih =>
    intro db tr
    rw [List.foldl_cons, checkStep_eq]
    obtain ⟨t1, ht1⟩ := ih (checkSubscription db s.id (outcome s.id)
      botPresent (sendOk s.id) tstr now).1 _
    obtain ⟨t0, ht0⟩ := checkSubscription_history_mono db s.id (outcome s.id)
      botPresent (sendOk s.id) tstr now
    exact ⟨t0 ++ t1, by rw [ht1, ht0, List.append_assoc]⟩

/-- When the given id is visible as an active subscription, the check finds
it and its trace begins with the fetch of the verdict. -/
lemma checkSubscription_find_some (db : DBState) (j : Nat)
    (hj : j ∈ activeIds db) :
    ∃ sub, (getActiveSubscriptions db).find? (fun s => s.id == j) =
      some sub := by
  rw [← Option.isSome_iff_exists, List.find?_isSome]
  obtain ⟨x, hx, hxid⟩ := List.mem_map.mp hj
  exact ⟨x, hx, by simp [hxid]⟩

/-- C6 at the single-check level: when the availability source raises, the
exception is caught and the whole check degenerates to the single fetch
attempt with the store state unchanged. -/
lemma checkSubscription_raises_eq (db : DBState) (j : Nat) (msg : String)
    (botPresent sendOk : Bool) (tstr : String) (now : Nat)
    (hj : j ∈ activeIds db) :
    checkSubscription db j (.raises msg) botPresent sendOk tstr now =
      (db, [Event.fetchVerdict]) := by
  obtain ⟨sub, hsub⟩ := checkSubscription_find_some db j hj
  unfold checkSubscription
  rw [hsub]

/-- The trace of a found check always begins with the verdict fetch. -/
lemma checkSubscription_trace_head (db : DBState) (j : Nat)
    (o : CheckOutcome) (botPresent sendOk : Bool) (tstr : String) (now : Nat)
    (hj : j ∈ activeIds db) :
    ∃ rest, (checkSubscription db j o botPresent sendOk tstr now).2 =
      Event.fetchVerdict :: rest := by
  obtain ⟨sub, hsub⟩ := checkSubscription_find_some db j hj
  unfold checkSubscription
  rw [hsub]
  cases o with
  | raises msg => exact ⟨[], rfl⟩
  | ok info =>
    by_cases h : pyGetAvailable info
    · refine ⟨[Event.updateLastCheckedOp, Event.recordHistoryOp,
        Event.dispatchNotifyOp], ?_⟩
      simp [h]
    · refine ⟨[Event.updateLastCheckedOp, Event.recordHistoryOp], ?_⟩
      simp [h]

/-- A found check with a successful verdict records a history entry for its
subscription. -/
lemma checkSubscription_history_of_ok (db : DBState) (j : Nat)
    (info : AvailabilityInfo) (botPresent sendOk : Bool) (tstr : String)
    (now : Nat) (hj : j ∈ activeIds db) :
    ∃ c ∈ (checkSubscription db j (.ok info) botPresent sendOk tstr
      now).1.history, c.subscription_id = j := by
  obtain ⟨sub, hsub⟩ := checkSubscription_find_some db j hj
  unfold checkSubscription
  rw [hsub]
  refine ⟨CheckRow.mk j now (pyGetAvailable info)
    (if info.isEmptyDict then none else some (serializeInfo info)), ?_, rfl⟩
  by_cases h : pyGetAvailable info
  · simp only [h, if_true]
    unfold sendNotification addNotification addCheckHistory updateLastChecked
    split_ifs <;> simp [h]
  · simp only [h, if_false]
    simp [addCheckHistory, updateLastChecked, h]

/-- Core induction for C4 over the snapshot list driving the fan-out: every
listed subscription whose id is active receives its fetch attempt, and if
its own outcome is a successful verdict it also receives its history
entry, whatever the outcomes (including raised exceptions) of all the
other subscriptions. -/
lemma checkAll_fold_props (outcome : Nat → CheckOutcome) (botPresent : Bool)
    (sendOk : Nat → Bool) (tstr : String) (now : Nat) :
    ∀ (l : List SubRow) (db : DBState) (j : Nat),
    j ∈ l.map (fun r => r.id) → j ∈ activeIds db →
    ((j, Event.fetchVerdict) ∈
      (l.foldl (checkStep outcome botPresent sendOk tstr now) (db, [])).2 ∧
     ∀ info, outcome j = .ok info →
       ∃ c ∈ (l.foldl (checkStep outcome botPresent sendOk tstr now)
          (db, [])).1.history, c.subscription_id = j) := by
  intro l
  induction l with
  | nil => intro db j hj; simp at hj
  | cons x l ih =>
    intro db j hj hact
    rw [List.foldl_cons, checkStep_eq]
    dsimp only
    rw [List.nil_append]
    rw [List.map_cons, List.mem_cons] at hj
    rcases hj with heq | hj'
    · subst heq
      constructor
      · rw [foldl_trace_append]
        obtain ⟨rest, hrest⟩ := checkSubscription_trace_head db x.id
          (outcome x.id) botPresent (sendOk x.id) tstr now hact
        rw [hrest]
        simp
      · intro info hinfo
        rw [hinfo]
        obtain ⟨c, hc, hcid⟩ := checkSubscription_history_of_ok db x.id info
          botPresent (sendOk x.id) tstr now hact
        obtain ⟨tail, htail⟩ := foldl_history_mono outcome botPresent sendOk
          tstr now l ((checkSubscription db x.id (.ok info) botPresent
            (sendOk x.id) tstr now).1)
          (List.map (fun e => (x.id, e)) (checkSubscription db x.id
            (.ok info) botPresent (sendOk x.id) tstr now).2)
        refine ⟨c, ?_, hcid⟩
        rw [htail]
        exact List.mem_append_left _ hc
    · have hact1 : j ∈ activeIds (checkSubscription db x.id (outcome x.id)
          botPresent (sendOk x.id) tstr now).1 := by
        rw [activeIds_check]; exact hact
      obtain ⟨hmem, hhist⟩ := ih _ j hj' hact1
      constructor
      · rw [foldl_trace_append]
        exact List.mem_append_right _ hmem
      · intro info hinfo
        obtain ⟨c, hc, hcid⟩ := hhist info hinfo
        refine ⟨c, ?_, hcid⟩
        rw [foldl_state_indep]
        exact hc

/-- C4: per-subscription failure isolation. For any cycle state and any
assignment of source outcomes — in particular one where some other
subscription's check raises — every subscription of the snapshot whose id
is active receives its fetch attempt in the cycle trace, and if its own
verdict fetch succeeds it also receives its check-history entry; no
exception aborts or escapes the batch (the fold is total). -/
theorem claim_C4_isolation (db : DBState) (outcome : Nat → CheckOutcome)
    (botPresent : Bool) (sendOk : Nat → Bool) (tstr : String) (now : Nat)
    (s : SubRow) (hs : s ∈ getActiveSubscriptions db) :
    (s.id, Event.fetchVerdict) ∈
      (checkAllSubscriptions db outcome botPresent sendOk tstr now).2 ∧
    ∀ info, outcome s.id = .ok info →
      ∃ c ∈ (checkAllSubscriptions db outcome botPresent sendOk tstr
        now).1.history, c.subscription_id = s.id := by
  have hact : s.id ∈ activeIds db := List.mem_map.mpr ⟨s, hs, rfl⟩
  exact checkAll_fold_props outcome botPresent sendOk tstr now
    (getActiveSubscriptions db) db s.id hact hact

/-- A second active subscription for the cycle-level witnesses. -/
def subB : SubRow :=
  { id := 2, user_id := 7, departure_station := "Москва",
    arrival_station := "Сочи", departure_date := 737950,
    train_number := "102С", seat_type := "плацкарт",
    berth_position := "любая", is_active := true, last_checked := none }

/-- A store with two active subscriptions of one user. -/
def dbTwo : DBState :=
  { users := [{ telegram_id := 7, first_name := "Иван" }],
    subs := [sub0, subB], history := [], notifs := [], nextSubId := 3 }

/-- An outcome assignment where subscription 1's check raises and every
other check returns an unavailable verdict. -/
def outcomesW : Nat → CheckOutcome := fun i =>
  if i == 1 then .raises "network error" else .ok (verdictInfo false)

/-- Witness for C4: with subscription 1 raising, subscription 2 still gets
its fetch attempt and its history entry. -/
theorem claim_C4_isolation_witness :
    (2, Event.fetchVerdict) ∈
      (checkAllSubscriptions dbTwo outcomesW true (fun _ => true) "ts"
        0).2 ∧
    ∃ c ∈ (checkAllSubscriptions dbTwo outcomesW true (fun _ => true) "ts"
      0).1.history, c.subscription_id = 2 :=
  ⟨(claim_C4_isolation dbTwo outcomesW true (fun _ => true) "ts" 0 subB
      (by decide)).1,
   (claim_C4_isolation dbTwo outcomesW true (fun _ => true) "ts" 0 subB
      (by decide)).2 (verdictInfo false) rfl⟩

/-- When a subscription's verdict fetch raises, its whole footprint in the
cycle trace is one fetch attempt per occurrence of its id in the snapshot
list, and nothing else. -/
lemma checkAll_fold_filter_raises (outcome : Nat → CheckOutcome)
    (botPresent : Bool) (sendOk : Nat → Bool) (tstr : String) (now : Nat)
    (j : Nat) (msg : String) (hraise : outcome j = .raises msg) :
    ∀ (l : List SubRow) (db : DBState), j ∈ activeIds db →
    ((l.foldl (checkStep outcome botPresent sendOk tstr now)
        (db, [])).2.filter (fun p => p.1 == j)) =
      List.replicate (l.filter (fun s => s.id == j)).length
        (j, Event.fetchVerdict) := by
  intro l
  induction l with
  | nil => intro db hj; simp
  | cons x l ih =>
    intro db hj
    rw [List.foldl_cons, checkStep_eq]
    dsimp only
    rw [List.nil_append, foldl_trace_append, List.filter_append]
    by_cases hx : (x.id == j) = true
    · have hxid : x.id = j := by simpa using hx
      have hstep : checkSubscription db x.id (outcome x.id) botPresent
          (sendOk x.id) tstr now = (db, [Event.fetchVerdict]) := by
        rw [hxid, hraise]
        exact checkSubscription_raises_eq db j msg botPresent (sendOk j)
          tstr now hj
      rw [hstep]
      dsimp only
      rw [ih db hj]
      simp [List.filter_cons, hx, hxid, List.replicate_succ]
    · have hx' : (x.id == j) = false := by simpa using hx
      have hstep₁ : List.filter (fun p => p.1 == j)
          (List.map (fun e => (x.id, e)) (checkSubscription db x.id
            (outcome x.id) botPresent (sendOk x.id) tstr now).2) = [] := by
        rw [List.filter_map]
        have hcomp : ((fun p : Nat × Event => p.1 == j) ∘
            (fun e => (x.id, e))) = fun _ => false := by
          funext e
          simp [Function.comp, hx']
        rw [hcomp]
        simp
      rw [hstep₁]
      have hact1 : j ∈ activeIds (checkSubscription db x.id (outcome x.id)
          botPresent (sendOk x.id) tstr now).1 := by
        rw [activeIds_check]; exact hj
      rw [List.nil_append, ih _ hact1]
      simp [List.filter_cons, hx']

/-- C6: atomicity on source failure. When the availability source raises
for a subscription, the exception is caught and that subscription's state
is untouched: the check returns the store unchanged (no last-checked
update, no history entry, no notification) with a single fetch attempt;
and across the whole cycle the subscription's footprint in the trace is
exactly that one fetch — the failure is not retried within the cycle. -/
theorem claim_C6_atomic_on_failure (db : DBState) (j : Nat) (msg : String)
    (outcome : Nat → CheckOutcome) (botPresent : Bool) (sendOk : Nat → Bool)
    (tstr : String) (now : Nat)
    (hact : j ∈ activeIds db)
    (hraise : outcome j = .raises msg)
    (hnd : (activeIds db).Nodup) :
    checkSubscription db j (.raises msg) botPresent (sendOk j) tstr now =
      (db, [Event.fetchVerdict]) ∧
    (checkAllSubscriptions db outcome botPresent sendOk tstr
      now).2.filter (fun p => p.1 == j) = [(j, Event.fetchVerdict)] := by
  refine ⟨checkSubscription_raises_eq db j msg botPresent (sendOk j) tstr
    now hact, ?_⟩
  have h1 := checkAll_fold_filter_raises outcome botPresent sendOk tstr now
    j msg hraise (getActiveSubscriptions db) db hact
  have hlen : ((getActiveSubscriptions db).filter
      (fun s => s.id == j)).length = 1 := by
    have h2 : List.count j (activeIds db) =
        ((getActiveSubscriptions db).filter (fun s => s.id == j)).length := by
      unfold activeIds
      rw [List.count_eq_countP, List.countP_map,
        List.countP_eq_length_filter]
      rfl
    rw [← h2]
    exact List.count_eq_one_of_mem hnd hact
  unfold checkAllSubscriptions
  rw [h1, hlen]
  rfl

/-- Witness for C6: in the two-subscription store with subscription 1's
source raising, the single check leaves the store untouched and the cycle
trace records exactly one fetch attempt for subscription 1. -/
theorem claim_C6_atomic_on_failure_witness :
    checkSubscription dbTwo 1 (.raises "network error") true
      ((fun _ => true) 1) "ts" 0 = (dbTwo, [Event.fetchVerdict]) ∧
    (checkAllSubscriptions dbTwo outcomesW true (fun _ => true) "ts"
      0).2.filter (fun p => p.1 == 1) = [(1, Event.fetchVerdict)] :=
  claim_C6_atomic_on_failure dbTwo 1 "network error" outcomesW true
    (fun _ => true) "ts" 0 (by decide) rfl (by decide)

/-- The housekeeping fold rewrites the subscription rows pointwise: a row
ends up deactivated exactly when some snapshot element with its id has a
past departure date; everything else about the row is untouched. -/
lemma cleanup_foldl_subs (today : Nat) :
    ∀ (l : List SubRow) (db : DBState),
    (l.foldl (fun st s => if s.departure_date < today then
        deactivateSubscription st s.id else st) db).subs =
      db.subs.map (fun r =>
        if l.any (fun t => (r.id == t.id) &&
            decide (t.departure_date < today)) then
          { r with is_active := false } else r) := by
  intro l
  induction l with
  | nil =>
    intro db
    simp
  | cons s l ih =>
    intro db
    rw [List.foldl_cons]
    by_cases hd : s.departure_date < today
    · rw [if_pos hd, ih]
      unfold deactivateSubscription
      dsimp only
      rw [List.map_map]
      apply List.map_congr_left
      intro r hr
      simp only [Function.comp]
      by_cases h1 : (r.id == s.id) = true
      · simp only [h1, if_true]
        by_cases h2 : (l.any (fun t => (r.id == t.id) &&
            decide (t.departure_date < today))) = true
        · simp [List.any_cons, h1, h2, hd]
        · simp [List.any_cons, h1, h2, hd]
      · simp only [h1, Bool.false_eq_true, if_false, List.any_cons, h1]
        simp [h1]
    · rw [if_neg hd, ih]
      apply List.map_congr_left
      intro r hr
      simp [List.any_cons, hd]

/-- The housekeeping fold never touches the users table nor the history or
notification logs. -/
lemma cleanup_foldl_rest (today : Nat) :
    ∀ (l : List SubRow) (db : DBState),
    (l.foldl (fun st s => if s.departure_date < today then
        deactivateSubscription st s.id else st) db).users = db.users ∧
    (l.foldl (fun st s => if s.departure_date < today then
        deactivateSubscription st s.id else st) db).history = db.history ∧
    (l.foldl (fun st s => if s.departure_date < today then
        deactivateSubscription st s.id else st) db).notifs = db.notifs := by
  intro l
  induction l with
  | nil => intro db; exact ⟨rfl, rfl, rfl⟩
  | cons s l ih =>
    intro db
    rw [List.foldl_cons]
    by_cases hd : s.departure_date < today
    · rw [if_pos hd]
      exact ih (deactivateSubscription db s.id)
    · rw [if_neg hd]
      exact ih db

/-- Membership characterisation of the active-subscription listing. -/
lemma mem_getActive {db : DBState} {t : SubRow} :
    t ∈ getActiveSubscriptions db ↔ t ∈ db.subs ∧
      (t.is_active && db.users.any (fun u => u.telegram_id == t.user_id))
        = true := by
  unfold getActiveSubscriptions
  exact List.mem_filter

/-- C7: past-date deactivation. A subscription visible to the housekeeping
pass whose departure date is strictly before today is deactivated in place
(the row survives with is_active cleared) and no row with its id remains
in the active-subscription listing; a visible subscription whose departure
date is today or later stays in the active listing unchanged. -/
theorem claim_C7_past_date_deactivation (db : DBState) (today : Nat)
    (r : SubRow) (hnd : (db.subs.map (fun s => s.id)).Nodup)
    (hr : r ∈ getActiveSubscriptions db) :
    (r.departure_date < today →
      ({ r with is_active := false } ∈
        (cleanupOldSubscriptions db today).subs ∧
       ∀ t ∈ getActiveSubscriptions (cleanupOldSubscriptions db today),
         t.id ≠ r.id)) ∧
    (today ≤ r.departure_date →
      r ∈ getActiveSubscriptions (cleanupOldSubscriptions db today)) := by
  have hinj := List.inj_on_of_nodup_map hnd
  have hrsub : r ∈ db.subs := (mem_getActive.mp hr).1
  have hrpred := (mem_getActive.mp hr).2
  have hsubs : (cleanupOldSubscriptions db today).subs =
      db.subs.map (fun r =>
        if (getActiveSubscriptions db).any (fun t => (r.id == t.id) &&
            decide (t.departure_date < today)) then
          { r with is_active := false } else r) :=
    cleanup_foldl_subs today (getActiveSubscriptions db) db
  have husers : (cleanupOldSubscriptions db today).users = db.users :=
    (cleanup_foldl_rest today (getActiveSubscriptions db) db).1
  constructor
  · intro hlt
    have hcond : ((getActiveSubscriptions db).any (fun t => (r.id == t.id) &&
        decide (t.departure_date < today))) = true := by
      rw [List.any_eq_true]
      exact ⟨r, hr, by simp [hlt]⟩
    constructor
    · rw [hsubs]
      exact List.mem_map.mpr ⟨r, hrsub, by rw [if_pos hcond]⟩
    · intro t ht hid
      rw [mem_getActive, hsubs, husers] at ht
      obtain ⟨htmem, htpred⟩ := ht
      obtain ⟨u, hu, hut⟩ := List.mem_map.mp htmem
      have huid : u.id = r.id := by
        by_cases hc : ((getActiveSubscriptions db).any
            (fun t => (u.id == t.id) && decide (t.departure_date < today)))
            = true
        · rw [if_pos hc] at hut
          rw [← hut] at hid
          exact hid
        · rw [if_neg (by simp [hc])] at hut
          rw [← hut] at hid
          exact hid
      have : u = r := hinj hu hrsub huid
      subst this
      have hcond' : ((getActiveSubscriptions db).any
          (fun t => (u.id == t.id) && decide (t.departure_date < today)))
          = true := by
        rw [List.any_eq_true]
        exact ⟨u, hr, by simp [hlt]⟩
      rw [if_pos hcond'] at hut
      rw [← hut] at htpred
      simp at htpred
  · intro hge
    have hcond : ((getActiveSubscriptions db).any (fun t => (r.id == t.id) &&
        decide (t.departure_date < today))) = false := by
      rw [Bool.eq_false_iff]
      intro hc
      obtain ⟨t, htmem, htp⟩ := List.any_eq_true.mp hc
      obtain ⟨h1, h2⟩ : (r.id == t.id) = true ∧
          decide (t.departure_date < today) = true := by simpa using htp
      have htid : r.id = t.id := by simpa using h1
      have htsub : t ∈ db.subs := (mem_getActive.mp htmem).1
      have : t = r := hinj htsub hrsub htid.symm
      subst this
      exact absurd (by simpa using h2) (not_lt.mpr hge)
    rw [mem_getActive, hsubs, husers]
    refine ⟨List.mem_map.mpr ⟨r, hrsub, by rw [hcond]; simp⟩, hrpred⟩

/-- Witness for C7 at today = 737950 over the two-subscription store:
subscription 1 (date 737946, in the past) is deactivated in place and
vanishes from the active listing, while subscription 2 (date 737950,
today) stays listed. -/
theorem claim_C7_past_date_deactivation_witness :
    ({ sub0 with is_active := false } ∈
        (cleanupOldSubscriptions dbTwo 737950).subs ∧
      ∀ t ∈ getActiveSubscriptions (cleanupOldSubscriptions dbTwo 737950),
        t.id ≠ 1) ∧
    subB ∈ getActiveSubscriptions (cleanupOldSubscriptions dbTwo 737950) :=
  ⟨(claim_C7_past_date_deactivation dbTwo 737950 sub0 (by decide)
      (by decide)).1 (by decide),
   (claim_C7_past_date_deactivation dbTwo 737950 subB (by decide)
      (by decide)).2 (by decide)⟩

/-- String concatenation is associative. -/
lemma str_append_assoc (a b c : String) : a ++ b ++ c = a ++ (b ++ c) := by
  apply String.ext
  simp [String.data_append]

/-- The empty string is a left unit. -/
lemma str_empty_append (a : String) : "" ++ a = a := by
  apply String.ext
  simp [String.data_append]

/-- The empty string is a right unit. -/
lemma str_append_empty (a : String) : a ++ "" = a := by
  apply String.ext
  simp [String.data_append]

/-- Left cancellation for string concatenation. -/
lemma str_append_left_cancel {a b c : String} (h : a ++ b = a ++ c) :
    b = c := by
  apply String.ext
  have hd := congrArg String.data h
  rw [String.data_append, String.data_append] at hd
  exact List.append_cancel_left hd

/-- Right cancellation for string concatenation. -/
lemma str_append_right_cancel {a b c : String} (h : a ++ c = b ++ c) :
    a = b := by
  apply String.ext
  have hd := congrArg String.data h
  rw [String.data_append, String.data_append] at hd
  exact List.append_cancel_right hd

/-- Folding concatenation from any seed factors through the seed. -/
lemma str_foldl_append (cs : List String) :
    ∀ a : String, cs.foldl (fun r s => r ++ s) a =
      a ++ cs.foldl (fun r s => r ++ s) "" := by
  induction cs with
  | nil => intro a; simp [str_append_empty]
  | cons c cs ih =>
    intro a
    rw [List.foldl_cons, List.foldl_cons, ih (a ++ c), ih ("" ++ c),
      str_empty_append, str_append_assoc]

/-- String.join splits on cons. -/
lemma str_join_cons (c : String) (cs : List String) :
    String.join (c :: cs) = c ++ String.join cs := by
  unfold String.join
  rw [List.foldl_cons, str_foldl_append, str_empty_append]

/-- String.join of a singleton. -/
lemma str_join_singleton (c : String) : String.join [c] = c := by
  rw [str_join_cons]
  unfold String.join
  rw [List.foldl_nil, str_append_empty]

/-- String.join is a monoid homomorphism on list append. -/
lemma str_join_append (l1 l2 : List String) :
    String.join (l1 ++ l2) = String.join l1 ++ String.join l2 := by
  induction l1 with
  | nil =>
    simp only [List.nil_append]
    rw [show String.join [] = "" from rfl, str_empty_append]
  | cons c l1 ih =>
    rw [List.cons_append, str_join_cons, str_join_cons, ih,
      str_append_assoc]

/-- The message substring relation: x occurs contiguously inside m. -/
def containsStr (m x : String) : Prop := ∃ p q, m = p ++ (x ++ q)

/-- The fragment at the current position is contained. -/
lemma containsStr_here (a x b : String) : containsStr (a ++ (x ++ b)) x :=
  ⟨a, b, rfl⟩

/-- Containment survives extension on the left. -/
lemma containsStr_left (a : String) {m x : String} (h : containsStr m x) :
    containsStr (a ++ m) x := by
  obtain ⟨p, q, hp⟩ := h
  exact ⟨a ++ p, q, by rw [hp, str_append_assoc]⟩

/-- Containment survives extension on the right. -/
lemma containsStr_right {m x : String} (b : String) (h : containsStr m x) :
    containsStr (m ++ b) x := by
  obtain ⟨p, q, hp⟩ := h
  refine ⟨p, q ++ b, ?_⟩
  rw [hp, str_append_assoc, str_append_assoc]

/-- First character of a string, used to discriminate message lines. -/
def headChar (s : String) : Option Char := s.data.head?

/-- The head character of a concatenation is that of a non-empty prefix. -/
lemma headChar_append_of_ne (a b : String) (h : a.data ≠ []) :
    headChar (a ++ b) = headChar a := by
  unfold headChar
  rw [String.data_append]
  cases hd : a.data with
  | nil => exact absurd hd h
  | cons c l => simp

/-- Strings with different head characters differ. -/
lemma ne_of_headChar {a b : String} (h : headChar a ≠ headChar b) :
    a ≠ b := fun e => h (congrArg headChar e)

/-- Head character of the fixed message block. -/
lemma headChar_mainChunk (sub : SubRow) :
    headChar (mainChunk sub) = headChar "🎉" :=
  headChar_append_of_ne _ _ (by decide)

/-- Head character of the berth line. -/
lemma headChar_berthChunk (sub : SubRow) :
    headChar (berthChunk sub) = headChar "🛏️" :=
  headChar_append_of_ne _ _ (by decide)

/-- Head character of the price line. -/
lemma headChar_priceChunk (p : String) :
    headChar (priceChunk p) = headChar "💰" :=
  headChar_append_of_ne _ _ (by decide)

/-- Head character of the car line. -/
lemma headChar_carChunk (c : String) :
    headChar (carChunk c) = headChar "🚃" :=
  headChar_append_of_ne _ _ (by decide)

/-- Head character of the seat line. -/
lemma headChar_seatChunk (s : String) :
    headChar (seatChunk s) = headChar "🪑" :=
  headChar_append_of_ne _ _ (by decide)

/-- Head character of the footer. -/
lemma headChar_footerChunk (tstr : String) :
    headChar (footerChunk tstr) = headChar "\n" :=
  headChar_append_of_ne _ _ (by decide)

/-- Membership in an optional truthiness-gated line. -/
lemma mem_optChunk {x : String} {f : String → String} {o : Option String} :
    x ∈ optChunk f o ↔ ∃ p, o = some p ∧ (p != "") = true ∧ x = f p := by
  cases o with
  | none => simp [optChunk]
  | some p =>
    simp only [optChunk]
    by_cases hp : (p != "") = true
    · rw [if_pos hp]
      constructor
      · intro h
        exact ⟨p, rfl, hp, List.mem_singleton.mp h⟩
      · rintro ⟨q, hq, hq2, hx⟩
        cases hq
        rw [hx]
        exact List.mem_singleton.mpr rfl
    · rw [if_neg hp]
      constructor
      · intro h
        exact absurd h (List.not_mem_nil x)
      · rintro ⟨q, hq, hq2, hx⟩
        cases hq
        exact absurd hq2 hp

/-- The price line determines its payload. -/
lemma priceChunk_inj {s p : String} (h : priceChunk s = priceChunk p) :
    s = p := by
  unfold priceChunk at h
  exact str_append_right_cancel (str_append_left_cancel h)

/-- The car line determines its payload. -/
lemma carChunk_inj {s p : String} (h : carChunk s = carChunk p) :
    s = p := by
  unfold carChunk at h
  exact str_append_right_cancel (str_append_left_cancel h)

/-- The seat line determines its payload. -/
lemma seatChunk_inj {s p : String} (h : seatChunk s = seatChunk p) :
    s = p := by
  unfold seatChunk at h
  exact str_append_right_cancel (str_append_left_cancel h)

/-- Containment in a join follows from containment in a member. -/
lemma containsStr_join {l : List String} {c x : String} (hc : c ∈ l)
    (h : containsStr c x) : containsStr (String.join l) x := by
  induction l with
  | nil => cases hc
  | cons d l ih =>
    rw [str_join_cons]
    rcases List.mem_cons.mp hc with rfl | hc'
    · exact containsStr_right _ h
    · exact containsStr_left _ (ih hc')

/-- An availability dictionary whose price key is present but empty: the
truthiness gate of monitoring.py:194 drops the price line for it. -/
def infoEmptyPrice : AvailabilityInfo :=
  { available := some true, seat_type := some "купе",
    berth_position := some "нижняя", price := some "",
    car_number := some "5", seat_number := some "12" }

/-- C8 counterexample: with the price present in the availability result
but equal to the empty string, the rendered message carries no price line,
so inclusion is not equivalent to presence. -/
theorem claim_C8_counterexample :
    infoEmptyPrice.price.isSome = true ∧
    priceChunk "" ∉ messageChunks sub0 infoEmptyPrice "ts" := by
  constructor
  · rfl
  · decide

/-- C8 as amended: the notification message always contains the train
number, both route stations, the rendered date and the seat class; it
carries the berth line exactly when the berth preference is not any; it
carries the price, car and seat lines exactly when the corresponding value
is present with a non-empty string; and the formatting timestamp enters
the message in exactly one slot, so the message is determined by
(subscription, availability result) up to that slot. -/
theorem claim_C8_message_contract (sub : SubRow) (info : AvailabilityInfo)
    (tstr : String) :
    containsStr (formatNotificationMessage sub info tstr)
      sub.train_number ∧
    containsStr (formatNotificationMessage sub info tstr)
      sub.departure_station ∧
    containsStr (formatNotificationMessage sub info tstr)
      sub.arrival_station ∧
    containsStr (formatNotificationMessage sub info tstr)
      (toString sub.departure_date) ∧
    containsStr (formatNotificationMessage sub info tstr) sub.seat_type ∧
    (berthChunk sub ∈ messageChunks sub info tstr ↔
      sub.berth_position ≠ "любая") ∧
    (∀ s, priceChunk s ∈ messageChunks sub info tstr ↔
      (info.price = some s ∧ s ≠ "")) ∧
    (∀ s, carChunk s ∈ messageChunks sub info tstr ↔
      (info.car_number = some s ∧ s ≠ "")) ∧
    (∀ s, seatChunk s ∈ messageChunks sub info tstr ↔
      (info.seat_number = some s ∧ s ≠ "")) ∧
    (∃ p q, ∀ t, formatNotificationMessage sub info t = p ++ (t ++ q)) := by
  have hmain_mem : mainChunk sub ∈ messageChunks sub info tstr := by
    simp [messageChunks]
  have hmem : ∀ x : String, x ∈ messageChunks sub info tstr ↔
      (x = mainChunk sub ∨
       x ∈ (if (sub.berth_position != "любая") = true
         then [berthChunk sub] else []) ∨
       x ∈ optChunk priceChunk info.price ∨
       x ∈ optChunk carChunk info.car_number ∨
       x ∈ optChunk seatChunk info.seat_number ∨
       x = footerChunk tstr) := by
    intro x
    simp [messageChunks, List.mem_append, List.mem_cons, or_assoc]
  have hbm : berthChunk sub ≠ mainChunk sub :=
    ne_of_headChar (by rw [headChar_berthChunk, headChar_mainChunk]; decide)
  have hbp : ∀ p, berthChunk sub ≠ priceChunk p := fun p =>
    ne_of_headChar (by rw [headChar_berthChunk, headChar_priceChunk]; decide)
  have hbc : ∀ p, berthChunk sub ≠ carChunk p := fun p =>
    ne_of_headChar (by rw [headChar_berthChunk, headChar_carChunk]; decide)
  have hbs : ∀ p, berthChunk sub ≠ seatChunk p := fun p =>
    ne_of_headChar (by rw [headChar_berthChunk, headChar_seatChunk]; decide)
  have hbf : berthChunk sub ≠ footerChunk tstr :=
    ne_of_headChar (by
      rw [headChar_berthChunk, headChar_footerChunk]
      decide)
  have hpm : ∀ s, priceChunk s ≠ mainChunk sub := fun s =>
    ne_of_headChar (by rw [headChar_priceChunk, headChar_mainChunk]; decide)
  have hpb : ∀ s, priceChunk s ≠ berthChunk sub := fun s =>
    ne_of_headChar (by rw [headChar_priceChunk, headChar_berthChunk]; decide)
  have hpc : ∀ s p, priceChunk s ≠ carChunk p := fun s p =>
    ne_of_headChar (by rw [headChar_priceChunk, headChar_carChunk]; decide)
  have hps : ∀ s p, priceChunk s ≠ seatChunk p := fun s p =>
    ne_of_headChar (by rw [headChar_priceChunk, headChar_seatChunk]; decide)
  have hpf : ∀ s, priceChunk s ≠ footerChunk tstr := fun s =>
    ne_of_headChar (by
      rw [headChar_priceChunk, headChar_footerChunk]
      decide)
  have hcm : ∀ s, carChunk s ≠ mainChunk sub := fun s =>
    ne_of_headChar (by rw [headChar_carChunk, headChar_mainChunk]; decide)
  have hcb : ∀ s, carChunk s ≠ berthChunk sub := fun s =>
    ne_of_headChar (by rw [headChar_carChunk, headChar_berthChunk]; decide)
  have hcp : ∀ s p, carChunk s ≠ priceChunk p := fun s p =>
    ne_of_headChar (by rw [headChar_carChunk, headChar_priceChunk]; decide)
  have hcs : ∀ s p, carChunk s ≠ seatChunk p := fun s p =>
    ne_of_headChar (by rw [headChar_carChunk, headChar_seatChunk]; decide)
  have hcf : ∀ s, carChunk s ≠ footerChunk tstr := fun s =>
    ne_of_headChar (by rw [headChar_carChunk, headChar_footerChunk]; decide)
  have hsm : ∀ s, seatChunk s ≠ mainChunk sub := fun s =>
    ne_of_headChar (by rw [headChar_seatChunk, headChar_mainChunk]; decide)
  have hsb : ∀ s, seatChunk s ≠ berthChunk sub := fun s =>
    ne_of_headChar (by rw [headChar_seatChunk, headChar_berthChunk]; decide)
  have hsp : ∀ s p, seatChunk s ≠ priceChunk p := fun s p =>
    ne_of_headChar (by rw [headChar_seatChunk, headChar_priceChunk]; decide)
  have hsc : ∀ s p, seatChunk s ≠ carChunk p := fun s p =>
    ne_of_headChar (by rw [headChar_seatChunk, headChar_carChunk]; decide)
  have hsf : ∀ s, seatChunk s ≠ footerChunk tstr := fun s =>
    ne_of_headChar (by
      rw [headChar_seatChunk, headChar_footerChunk]
      decide)
  refine ⟨?_, ?_, ?_, ?_, ?_, ?_, ?_, ?_, ?_, ?_⟩
  · exact containsStr_join hmain_mem
      (by unfold mainChunk; exact containsStr_here _ _ _)
  · exact containsStr_join hmain_mem
      (by unfold mainChunk; exact containsStr_left _ (containsStr_left _
        (containsStr_here _ _ _)))
  · exact containsStr_join hmain_mem
      (by unfold mainChunk; exact containsStr_left _ (containsStr_left _
        (containsStr_left _ (containsStr_left _
          (containsStr_here _ _ _)))))
  · exact containsStr_join hmain_mem
      (by unfold mainChunk; exact containsStr_left _ (containsStr_left _
        (containsStr_left _ (containsStr_left _ (containsStr_left _
          (containsStr_left _ (containsStr_here _ _ _)))))))
  · exact containsStr_join hmain_mem
      (by unfold mainChunk; exact containsStr_left _ (containsStr_left _
        (containsStr_left _ (containsStr_left _ (containsStr_left _
          (containsStr_left _ (containsStr_left _ (containsStr_left _
            (containsStr_here _ _ _)))))))))
  · constructor
    · intro h
      rcases (hmem _).mp h with h | h | h | h | h | h
      · exact absurd h hbm
      · by_cases hb : (sub.berth_position != "любая") = true
        · exact bne_iff_ne.mp hb
        · rw [if_neg hb] at h
          exact absurd h (List.not_mem_nil _)
      · obtain ⟨p, _, _, heq⟩ := mem_optChunk.mp h
        exact absurd heq (hbp p)
      · obtain ⟨p, _, _, heq⟩ := mem_optChunk.mp h
        exact absurd heq (hbc p)
      · obtain ⟨p, _, _, heq⟩ := mem_optChunk.mp h
        exact absurd heq (hbs p)
      · exact absurd h hbf
    · intro hb
      apply (hmem _).mpr
      right; left
      rw [if_pos (bne_iff_ne.mpr hb)]
      exact List.mem_singleton.mpr rfl
  · intro s
    constructor
    · intro h
      rcases (hmem _).mp h with h | h | h | h | h | h
      · exact absurd h (hpm s)
      · by_cases hb : (sub.berth_position != "любая") = true
        · rw [if_pos hb] at h
          exact absurd (List.mem_singleton.mp h) (hpb s)
        · rw [if_neg hb] at h
          exact absurd h (List.not_mem_nil _)
      · obtain ⟨p, hp, hpe, heq⟩ := mem_optChunk.mp h
        cases priceChunk_inj heq
        exact ⟨hp, bne_iff_ne.mp hpe⟩
      · obtain ⟨p, _, _, heq⟩ := mem_optChunk.mp h
        exact absurd heq (hpc s p)
      · obtain ⟨p, _, _, heq⟩ := mem_optChunk.mp h
        exact absurd heq (hps s p)
      · exact absurd h (hpf s)
    · rintro ⟨hp, hs⟩
      apply (hmem _).mpr
      right; right; left
      exact mem_optChunk.mpr ⟨s, hp, bne_iff_ne.mpr hs, rfl⟩
  · intro s
    constructor
    · intro h
      rcases (hmem _).mp h with h | h | h | h | h | h
      · exact absurd h (hcm s)
      · by_cases hb : (sub.berth_position != "любая") = true
        · rw [if_pos hb] at h
          exact absurd (List.mem_singleton.mp h) (hcb s)
        · rw [if_neg hb] at h
          exact absurd h (List.not_mem_nil _)
      · obtain ⟨p, _, _, heq⟩ := mem_optChunk.mp h
        exact absurd heq (hcp s p)
      · obtain ⟨p, hp, hpe, heq⟩ := mem_optChunk.mp h
        cases carChunk_inj heq
        exact ⟨hp, bne_iff_ne.mp hpe⟩
      · obtain ⟨p, _, _, heq⟩ := mem_optChunk.mp h
        exact absurd heq (hcs s p)
      · exact absurd h (hcf s)
    · rintro ⟨hp, hs⟩
      apply (hmem _).mpr
      right; right; right; left
      exact mem_optChunk.mpr ⟨s, hp, bne_iff_ne.mpr hs, rfl⟩
  · intro s
    constructor
    · intro h
      rcases (hmem _).mp h with h | h | h | h | h | h
      · exact absurd h (hsm s)
      · by_cases hb : (sub.berth_position != "любая") = true
        · rw [if_pos hb] at h
          exact absurd (List.mem_singleton.mp h) (hsb s)
        · rw [if_neg hb] at h
          exact absurd h (List.not_mem_nil _)
      · obtain ⟨p, _, _, heq⟩ := mem_optChunk.mp h
        exact absurd heq (hsp s p)
      · obtain ⟨p, _, _, heq⟩ := mem_optChunk.mp h
        exact absurd heq (hsc s p)
      · obtain ⟨p, hp, hpe, heq⟩ := mem_optChunk.mp h
        cases seatChunk_inj heq
        exact ⟨hp, bne_iff_ne.mp hpe⟩
      · exact absurd h (hsf s)
    · rintro ⟨hp, hs⟩
      apply (hmem _).mpr
      right; right; right; right; left
      exact mem_optChunk.mpr ⟨s, hp, bne_iff_ne.mpr hs, rfl⟩
  · refine ⟨String.join ([mainChunk sub] ++
      (if (sub.berth_position != "любая") = true then [berthChunk sub]
        else []) ++
      optChunk priceChunk info.price ++
      optChunk carChunk info.car_number ++
      optChunk seatChunk info.seat_number) ++
      "\n⏰ <b>Время уведомления:</b> ",
      "\n\n🔗 <b>Ссылка для бронирования:</b>\nhttps://pass.rzd.ru/tickets/public/ru",
      ?_⟩
    intro t
    unfold formatNotificationMessage messageChunks
    rw [str_join_append, str_join_singleton]
    unfold footerChunk
    exact (str_append_assoc _ _ _).symm

end RzdBot
